import Mathlib

/-
Shallow embedding of the company-review REST API
(models User/Company/Review, the review and company route handlers,
the rating aggregation hooks, the query-filter translator, and auth).

Conventions of the embedding:
* Mongo ObjectIds are modelled as `Nat`.
* Ratings and averages are modelled as exact rationals `ℚ`
  (the spec asks for the mean "within floating-point tolerance";
  the exact mean is the reference value).
* A route handler is a pure function from the database state (plus the
  authenticated caller and request data) to an HTTP status code and the
  new database state.  Errors thrown by Mongoose (validation failures,
  duplicate-key errors) reach the generic Express error middleware,
  which answers 500 — so those paths return status 500 with the state
  unchanged.
-/

namespace CR

inductive Role where
  | user
  | admin
deriving DecidableEq

/-- User record (src/models/User.ts).  `passwordHash` models the bcrypt
hash abstractly as the (salt, password) pair; `bcryptCompare` below is
the model of `bcrypt.compare`'s contract. -/
structure User where
  id : Nat
  name : String
  email : String
  passwordHash : Nat × String
  role : Role
deriving DecidableEq

/-- Review record (src/models/Review.ts). -/
structure Review where
  id : Nat
  rating : ℚ
  comment : String
  companyId : Nat
  authorId : Nat
deriving DecidableEq

/-- Company record (src/models/Company.ts).  `averageRating` is the
denormalised cache maintained by the rating aggregator. -/
structure Company where
  id : Nat
  name : String
  description : String
  industry : String
  location : String
  averageRating : Option ℚ
  createdAt : Nat
deriving DecidableEq

/-- The document store: one collection per record kind. -/
structure DB where
  users : List User
  companies : List Company
  reviews : List Review
deriving DecidableEq

/-- `Review.findById` — first document with the given id. -/
def findReview (db : DB) (rid : Nat) : Option Review :=
  db.reviews.find? (fun r => r.id = rid)

/-- `Company.findById`. -/
def findCompany (db : DB) (cid : Nat) : Option Company :=
  db.companies.find? (fun c => c.id = cid)

/-- The `$match {companyId}` stage of the aggregation in
`Review.getAverageRating`: all reviews referencing the company. -/
def companyReviews (db : DB) (cid : Nat) : List Review :=
  db.reviews.filter (fun r => r.companyId = cid)

def ratingSum (rs : List Review) : ℚ :=
  rs.foldr (fun r acc => r.rating + acc) 0

/-- `$avg: '$rating'` over a group of reviews. -/
def ratingMean (rs : List Review) : ℚ :=
  ratingSum rs / rs.length

/-- The value written by the aggregation:
`obj[0] ? obj[0].averageRating : undefined` — the group's mean when at
least one review matches, `undefined` (modelled as clearing the field)
otherwise. -/
def newAverage (db : DB) (cid : Nat) : Option ℚ :=
  if (companyReviews db cid).isEmpty then none
  else some (ratingMean (companyReviews db cid))

/-- `ReviewSchema.statics.getAverageRating` (src/models/Review.ts):
aggregate the reviews of `cid` and write the mean into the company via
`Company.findByIdAndUpdate`. -/
def getAverageRating (db : DB) (cid : Nat) : DB :=
  { db with
    companies := db.companies.map (fun c =>
      if c.id = cid then { c with averageRating := newAverage db cid } else c) }

/-- Request body of PUT /api/reviews/:id — an arbitrary subset of the
review's fields (`findByIdAndUpdate` applies the body wholesale; there
is no field whitelist in the route). -/
structure ReviewBody where
  rating : Option ℚ
  comment : Option String
  companyId : Option Nat
  authorId : Option Nat
deriving DecidableEq

/-- Effect of `findByIdAndUpdate(id, body)` on one document: every field
named in the body is overwritten, every other field is kept.  `_id` is
immutable in Mongo and not part of the body. -/
def applyReviewBody (b : ReviewBody) (r : Review) : Review :=
  { r with
    rating := b.rating.getD r.rating
    comment := b.comment.getD r.comment
    companyId := b.companyId.getD r.companyId
    authorId := b.authorId.getD r.authorId }

/-- `runValidators: true` on the update: the schema validators run on
the paths being set (`rating` min 1 / max 5; `comment` required, which
fails on the empty string). -/
def validBodyUpdate (b : ReviewBody) : Bool :=
  (match b.rating with
   | none => true
   | some q => decide (1 ≤ q) && decide (q ≤ 5)) &&
  (match b.comment with
   | none => true
   | some cm => !cm.isEmpty)

/-- The unique index over (companyId, authorId)
(src/models/Review.ts line 43): true when writing `r'` in place of the
document with id `rid` would collide with another stored review. -/
def dupAfterUpdate (db : DB) (rid : Nat) (r' : Review) : Bool :=
  db.reviews.any (fun x =>
    decide (x.id ≠ rid) && decide (x.companyId = r'.companyId) &&
      decide (x.authorId = r'.authorId))

/-- PUT /api/reviews/:id (src/routes/reviews.ts lines 88-113):
find the review (404 if absent); 401 unless the caller is the author or
an admin; then `findByIdAndUpdate(id, req.body, {new, runValidators})`.
`findByIdAndUpdate` fires no `save` middleware, so the rating
aggregator does NOT run on this path.  Validation or duplicate-key
errors propagate to the error middleware (500, state unchanged). -/
def updateReview (db : DB) (caller : User) (rid : Nat) (b : ReviewBody) : Nat × DB :=
  match findReview db rid with
  | none => (404, db)
  | some r =>
    if r.authorId ≠ caller.id ∧ caller.role ≠ Role.admin then (401, db)
    else if validBodyUpdate b = false then (500, db)
    else if dupAfterUpdate db rid (applyReviewBody b r) then (500, db)
    else (200, { db with
      reviews := db.reviews.map (fun x =>
        if x.id = rid then applyReviewBody b x else x) })

/-- `review.deleteOne()` document deletion: removes the matched
document. -/
def removeReview (db : DB) (rid : Nat) : DB :=
  { db with reviews := db.reviews.eraseP (fun x => x.id == rid) }

/-- DELETE /api/reviews/:id (src/routes/reviews.ts lines 118-140):
find the review (404 if absent); 401 unless the caller is the author or
an admin; then `review.deleteOne()`.  The `pre('deleteOne')` document
hook (src/models/Review.ts lines 74-76) runs `getAverageRating` BEFORE
the document is removed, so the aggregate still sees the review being
deleted. -/
def deleteReview (db : DB) (caller : User) (rid : Nat) : Nat × DB :=
  match findReview db rid with
  | none => (404, db)
  | some r =>
    if r.authorId ≠ caller.id ∧ caller.role ≠ Role.admin then (401, db)
    else (200, removeReview (getAverageRating db r.companyId) rid)

/-- GET /api/reviews/:id — status only (404 when no document is
found). -/
def getReview (db : DB) (rid : Nat) : Nat :=
  match findReview db rid with
  | none => 404
  | some _ => 200

/-- Body of POST /api/companies/:companyId/reviews.  The route
overwrites `companyId` with the path parameter and `authorId` with the
caller's id before `Review.create`, so only rating and comment come
from the client. -/
structure CreateReviewBody where
  rating : Option ℚ
  comment : Option String
deriving DecidableEq

inductive CreateErr where
  | validation
  | dupKey
deriving DecidableEq

/-- `Review.create` (model layer): schema validation first
(rating required and within [1,5]; comment required and nonempty), then
the insert, which the unique (companyId, authorId) index rejects with a
duplicate-key error when the pair already exists. -/
def reviewCreateModel (db : DB) (r : Review) : Except CreateErr DB :=
  if ¬ (1 ≤ r.rating ∧ r.rating ≤ 5) then .error .validation
  else if r.comment.isEmpty then .error .validation
  else if db.reviews.any (fun x =>
      decide (x.companyId = r.companyId) && decide (x.authorId = r.authorId)) then
    .error .dupKey
  else .ok { db with reviews := db.reviews ++ [r] }

/-- POST /api/companies/:companyId/reviews (src/routes/reviews.ts lines
63-83): 404 when the company does not exist; otherwise `Review.create`
with `companyId := params.companyId` and `authorId := caller._id`; on
success the `post('save')` hook recomputes the company's average.
Create errors surface as 500 through the error middleware.  `newId` is
the ObjectId minted for the new document. -/
def createReview (db : DB) (caller : User) (cid : Nat)
    (body : CreateReviewBody) (newId : Nat) : Nat × DB :=
  match findCompany db cid with
  | none => (404, db)
  | some _ =>
    match body.rating, body.comment with
    | some q, some cm =>
      match reviewCreateModel db ⟨newId, q, cm, cid, caller.id⟩ with
      | .error _ => (500, db)
      | .ok db1 => (201, getAverageRating db1 cid)
    | _, _ => (500, db)

/-- `page = parseInt(req.query.page) || 1`: `none` models an absent or
non-numeric parameter (parseInt yields NaN, which is falsy), and an
explicit 0 is falsy as well. -/
def pageVal (p : Option Int) : Int :=
  match p with
  | none => 1
  | some v => if v = 0 then 1 else v

/-- `limit = parseInt(req.query.limit) || 25`. -/
def limitVal (l : Option Int) : Int :=
  match l with
  | none => 25
  | some v => if v = 0 then 25 else v

/-- Insertion step for the default `-createdAt` sort (newest first). -/
def sortedInsertCompany (c : Company) : List Company → List Company
  | [] => [c]
  | x :: xs =>
    if c.createdAt ≤ x.createdAt then x :: sortedInsertCompany c xs
    else c :: x :: xs

/-- The default sort of GET /api/companies: by creation time,
descending. -/
def sortCompanies (l : List Company) : List Company :=
  l.foldr sortedInsertCompany []

/-- Shape of the GET /api/companies response:
`{success, count, pagination: {next?, prev?}, data}`.  `next`/`prev`
carry the page number and limit of the adjacent page. -/
structure ListResult where
  status : Nat
  count : Nat
  next : Option (Int × Int)
  prev : Option (Int × Int)
  data : List Company
deriving DecidableEq

/-- GET /api/companies (src/routes/companies.ts lines 14-88), the
pagination slice of the handler.  `filt` is the parsed filter document
applied by `Company.find` (its construction from the query string is
modelled separately by the filter translator below); the sort is the
default `-createdAt`.  `total` is the separate, unconditional
`Company.countDocuments()` — it ignores the active filter.  The `count`
field of the response is `companies.length`, the number of records in
the returned page.  A negative skip makes the Mongo driver throw, which
the catch forwards to the error middleware (500). -/
def listCompanies (db : DB) (filt : Company → Bool)
    (pOpt lOpt : Option Int) : ListResult :=
  if (pageVal pOpt - 1) * limitVal lOpt < 0 then
    { status := 500, count := 0, next := none, prev := none, data := [] }
  else
    { status := 200
      count := (((sortCompanies (db.companies.filter filt)).drop
        ((pageVal pOpt - 1) * limitVal lOpt).toNat).take (limitVal lOpt).toNat).length
      next := if pageVal pOpt * limitVal lOpt < (db.companies.length : Int) then
          some (pageVal pOpt + 1, limitVal lOpt) else none
      prev := if (pageVal pOpt - 1) * limitVal lOpt > 0 then
          some (pageVal pOpt - 1, limitVal lOpt) else none
      data := ((sortCompanies (db.companies.filter filt)).drop
        ((pageVal pOpt - 1) * limitVal lOpt).toNat).take (limitVal lOpt).toNat }

/-- JavaScript's `\w` character class (the regexes in the source are
ASCII). -/
def isWordChar (c : Char) : Bool :=
  c.isAlpha || c.isDigit || c == '_'

/-- The alternatives of the operator-rewriting regex
`/\b(gt|gte|lt|lte|in)\b/g` in src/routes/companies.ts line 31. -/
def opWords : List (List Char) :=
  [['g', 't'], ['g', 't', 'e'], ['l', 't'], ['l', 't', 'e'], ['i', 'n']]

/-- Replacement applied to one maximal word token: the regex's `\b…\b`
anchors mean a match is exactly a maximal run of word characters equal
to one alternative, replaced by `$` + itself. -/
def rewriteRun (w : List Char) : List Char :=
  if w ∈ opWords then '$' :: w else w

/-- Scanner for the global regex replace: accumulates the current word
run (reversed) in `cur` and rewrites each maximal run when it equals an
operator word. -/
def repAux : List Char → List Char → List Char
  | cur, [] => rewriteRun cur.reverse
  | cur, c :: cs =>
    if isWordChar c then repAux (c :: cur) cs
    else rewriteRun cur.reverse ++ c :: repAux [] cs

/-- `queryStr.replace(/\b(gt|gte|lt|lte|in)\b/g, m => '$' + m)`. -/
def replaceOps (s : List Char) : List Char :=
  repAux [] s

mutual

/-- A value of the parsed query object `req.query` (the qs parser maps
`a[b]=c` to nested objects; leaves are strings). -/
inductive QVal where
  | str : List Char → QVal
  | obj : QFields → QVal

/-- The fields of a parsed query object. -/
inductive QFields where
  | fnil : QFields
  | fcons : List Char → QVal → QFields → QFields

end

mutual

/-- `JSON.stringify` of a query value (for strings free of characters
JSON would escape, i.e. quotes and backslashes). -/
def stringifyV : QVal → List Char
  | .str s => '"' :: s ++ ['"']
  | .obj fs => '{' :: stringifyF fs ++ ['}']

/-- `JSON.stringify` of an object body: comma-separated
`"key":value` pairs. -/
def stringifyF : QFields → List Char
  | .fnil => []
  | .fcons k v .fnil => '"' :: k ++ '"' :: ':' :: stringifyV v
  | .fcons k v (.fcons k2 v2 rest) =>
    ('"' :: k ++ '"' :: ':' :: stringifyV v) ++
      ',' :: stringifyF (.fcons k2 v2 rest)

end

mutual

/-- Token-wise operator rewriting applied structurally: every key and
every string value has its maximal word runs rewritten by
`replaceOps`.  This is the structural counterpart of running the regex
over the serialized JSON. -/
def mapV : QVal → QVal
  | .str s => .str (replaceOps s)
  | .obj fs => .obj (mapF fs)

/-- Token-wise operator rewriting over object fields. -/
def mapF : QFields → QFields
  | .fnil => .fnil
  | .fcons k v rest => .fcons (replaceOps k) (mapV v) (mapF rest)

end

/-- The reserved keys removed before the filter is built
(src/routes/companies.ts line 22). -/
def reservedKeys : List (List Char) :=
  [['s', 'e', 'l', 'e', 'c', 't'], ['s', 'o', 'r', 't'],
   ['p', 'a', 'g', 'e'], ['l', 'i', 'm', 'i', 't']]

/-- `removeFields.forEach(param => delete reqQuery[param])`. -/
def removeReserved : QFields → QFields
  | .fnil => .fnil
  | .fcons k v rest =>
    if k ∈ reservedKeys then removeReserved rest
    else .fcons k v (removeReserved rest)

/-- The top-level keys of a query object. -/
def qKeys : QFields → List (List Char)
  | .fnil => []
  | .fcons k _ rest => k :: qKeys rest

/-- The filter-translator pipeline of GET /api/companies
(src/routes/companies.ts lines 16-34): drop the reserved keys,
serialize with JSON.stringify, run the operator-rewriting regex.  The
result is the text that `JSON.parse` turns into the filter document
handed to `Company.find`. -/
def buildFilter (q : QFields) : List Char :=
  replaceOps (stringifyV (.obj (removeReserved q)))

/-- Model of the bcrypt hash stored by the pre-save hook of the User
schema: keeps the salt and the password; `bcryptCompare` is the
contract of `bcrypt.compare`. -/
def bcryptHash (salt : Nat) (pw : String) : Nat × String :=
  (salt, pw)

/-- `UserSchema.methods.matchPassword` via `bcrypt.compare`. -/
def bcryptCompare (entered : String) (h : Nat × String) : Bool :=
  decide (h.2 = entered)

/-- The JWT payload signed by `getSignedJwtToken`:
`{ id: this._id, role: this.role }`. -/
structure TokenPayload where
  id : Nat
  role : Role
deriving DecidableEq

/-- A signed token.  `sig` models the HMAC over the payload with the
server secret as the (secret, payload) pair. -/
structure Token where
  payload : TokenPayload
  sig : String × TokenPayload
deriving DecidableEq

/-- `jwt.sign(payload, process.env.JWT_SECRET)`
(src/models/User.ts lines 57-61). -/
def jwtSign (p : TokenPayload) (secret : String) : Token :=
  ⟨p, (secret, p)⟩

/-- `jwt.verify`'s signature check against a secret. -/
def jwtVerify (t : Token) (secret : String) : Bool :=
  decide (t.sig = (secret, t.payload))

/-- Reading the token's claims back. -/
def jwtDecode (t : Token) : TokenPayload :=
  t.payload

/-- `User.findOne({ email }).select('+password')`. -/
def findUserByEmail (db : DB) (email : String) : Option User :=
  db.users.find? (fun u => u.email = email)

/-- POST /api/auth/login (src/routes/auth.ts lines 194-221):
400 when email or password is missing or empty (falsy); 401 when no
user has the email or the password does not match; otherwise 200 and
`sendTokenResponse` issues the signed token. -/
def login (db : DB) (secret : String) (email pw : Option String) :
    Nat × Option Token :=
  match email, pw with
  | some em, some pw' =>
    if em.isEmpty || pw'.isEmpty then (400, none)
    else
      match findUserByEmail db em with
      | none => (401, none)
      | some u =>
        if bcryptCompare pw' u.passwordHash then
          (200, some (jwtSign ⟨u.id, u.role⟩ secret))
        else (401, none)
  | _, _ => (400, none)

/-- Continuation of `\w+([\.-]?\w+)*` after a leading word character:
word characters freely, separators `.`/`-` single and always followed
by a word character. -/
def namePartTail : List Char → Bool
  | [] => true
  | c :: rest =>
    if isWordChar c then namePartTail rest
    else if c == '.' || c == '-' then
      match rest with
      | [] => false
      | d :: rest' => isWordChar d && namePartTail rest'
    else false

/-- The language of `\w+([\.-]?\w+)*` (local part and domain stem of
the UserSchema email regex). -/
def namePartOk (l : List Char) : Bool :=
  match l with
  | [] => false
  | c :: rest => isWordChar c && namePartTail rest

/-- The language of `(\.\w{2,3})+`: one or more groups of a dot and two
or three word characters. -/
def tldOk : List Char → Bool
  | '.' :: a :: b :: c :: rest =>
    (isWordChar a && isWordChar b && isWordChar c &&
      (rest.isEmpty || tldOk rest)) ||
    (isWordChar a && isWordChar b && tldOk (c :: rest))
  | ['.', a, b] => isWordChar a && isWordChar b
  | _ => false

/-- The domain side `\w+([\.-]?\w+)*(\.\w{2,3})+`, decided by trying
every split point between the stem and the TLD groups (regex
backtracking). -/
def domainOk (l : List Char) : Bool :=
  (List.range (l.length + 1)).any
    (fun i => namePartOk (l.take i) && tldOk (l.drop i))

/-- The email-format regex of the User schema:
`/^\w+([\.-]?\w+)*@\w+([\.-]?\w+)*(\.\w{2,3})+$/`.  The local and
domain parts contain no `@`, so a match is exactly: a single `@`
splitting the string into a matching local part and domain. -/
def emailOk (s : String) : Bool :=
  match s.data.splitOn '@' with
  | [lp, dp] => namePartOk lp && domainOk dp
  | _ => false

/-- Body of POST /api/auth/register.  `role` is `none` when absent;
invalid role strings are rejected by the enum validator (not modelled
as a reachable value). -/
structure RegisterBody where
  name : Option String
  email : Option String
  password : Option String
  role : Option Role
deriving DecidableEq

/-- POST /api/auth/register (src/routes/auth.ts lines 173-189) plus
the User schema validation: required fields (failing on missing or
empty strings), the email format regex, password minlength 6, the
unique email index; the role defaults to `user`.  On success the user
is stored (password bcrypt-hashed by the pre-save hook) and
`sendTokenResponse` returns the token signed over `{id, role}`.
Validation and duplicate-key errors surface as 500.  `newId` is the
minted ObjectId, `salt` the bcrypt salt. -/
def register (db : DB) (secret : String) (b : RegisterBody)
    (newId salt : Nat) : Nat × Option (User × Token) × DB :=
  match b.name, b.email, b.password with
  | some nm, some em, some pw =>
    if nm.isEmpty || em.isEmpty || pw.isEmpty then (500, none, db)
    else if !emailOk em then (500, none, db)
    else if pw.length < 6 then (500, none, db)
    else if db.users.any (fun u => decide (u.email = em)) then (500, none, db)
    else
      let u : User := ⟨newId, nm, em, bcryptHash salt pw, b.role.getD Role.user⟩
      (201, some (u, jwtSign ⟨u.id, u.role⟩ secret),
        { db with users := db.users ++ [u] })
  | _, _, _ => (500, none, db)

/-- DELETE /api/companies/:id (src/routes/companies.ts lines 148-162):
find the company (404 if absent), then `company.deleteOne()`.  The
`pre('deleteOne')` document hook on the Company schema first runs
`Review.deleteMany({companyId})` — a query-level delete, so no review
document middleware fires — and then the company itself is removed. -/
def deleteCompany (db : DB) (cid : Nat) : Nat × DB :=
  match findCompany db cid with
  | none => (404, db)
  | some _ =>
    (200, { db with
      companies := db.companies.filter (fun c => c.id ≠ cid)
      reviews := db.reviews.filter (fun r => r.companyId ≠ cid) })

/-- Concrete store for the C1 scenarios: one company (id 1, cached
average 5) and one review of it (id 20, rating 5, author 7). -/
def dbC1 : DB :=
  ⟨[], [⟨1, "Acme", "d", "Technology", "UB", some 5, 0⟩],
    [⟨20, 5, "good", 1, 7⟩]⟩

def adminC1 : User := ⟨9, "r", "r@e.mn", (0, "y"), Role.admin⟩

def authorC1 : User := ⟨7, "a", "a@e.mn", (0, "p"), Role.user⟩

/-- Concrete store for the cascade-delete scenario: company 1 with two
reviews, company 2 with one review. -/
def dbC4 : DB :=
  ⟨[], [⟨1, "Acme", "d", "Technology", "UB", some 4, 0⟩,
        ⟨2, "Bcme", "d", "Finance", "UB", some 3, 1⟩],
    [⟨20, 5, "good", 1, 7⟩, ⟨21, 3, "meh", 1, 8⟩, ⟨22, 3, "ok", 2, 7⟩]⟩

/-- Concrete store for the uniqueness and rating-validation scenarios:
company 1 with one review by author 7. -/
def dbC6 : DB :=
  ⟨[], [⟨1, "Acme", "d", "Technology", "UB", some 3, 0⟩],
    [⟨20, 3, "ok", 1, 7⟩]⟩

def authorC6 : User := ⟨7, "c", "c@e.mn", (0, "z"), Role.user⟩

def userC9 : User := ⟨8, "b", "b@e.mn", (0, "q"), Role.user⟩

/-- Concrete store for the pagination scenario: three companies, no
users or reviews. -/
def dbC5 : DB :=
  ⟨[], [⟨1, "A", "d", "T", "L", none, 3⟩, ⟨2, "B", "d", "T", "L", none, 2⟩,
        ⟨3, "C", "d", "T", "L", none, 1⟩], []⟩

/-- Concrete store for the login scenario: one user with email
a@b.mn whose bcrypt hash was built from password secret123. -/
def dbC7 : DB :=
  ⟨[⟨5, "Ann", "a@b.mn", bcryptHash 2 "secret123", Role.user⟩], [], []⟩

theorem findRevMap (l : List Review) (f : Review → Review)
    (hf : ∀ r, (f r).id = r.id) (x : Nat) :
    (l.map f).find? (fun r => r.id = x) = (l.find? (fun r => r.id = x)).map f := by
  induction l with
  | nil => rfl
  | cons a t ih =>
    by_cases h : a.id = x
    · rw [List.map_cons, List.find?_cons_of_pos _ (by simpa [hf a] using h),
        List.find?_cons_of_pos _ (by simpa using h), Option.map_some']
    · rw [List.map_cons, List.find?_cons_of_neg _ (by simpa [hf a] using h),
        List.find?_cons_of_neg _ (by simpa using h), ih]

theorem erasePIdNe (l : List Review) (rid : Nat)
    (hnd : (l.map (fun x => x.id)).Nodup) :
    ∀ x ∈ l.eraseP (fun y => y.id == rid), x.id ≠ rid := by
  induction l with
  | nil => intro x hx; simp at hx
  | cons a t ih =>
    intro x hx
    rw [List.map_cons, List.nodup_cons] at hnd
    by_cases h : a.id = rid
    · rw [List.eraseP_cons_of_pos (by simpa using h)] at hx
      intro hxid
      exact hnd.1 (by
        have : x.id ∈ t.map (fun x => x.id) := List.mem_map_of_mem _ hx
        rwa [hxid, ← h] at this)
    · rw [List.eraseP_cons_of_neg (by simpa using h)] at hx
      rcases List.mem_cons.mp hx with rfl | hx'
      · exact h
      · exact ih hnd.2 x hx'

theorem updateOk (db : DB) (caller : User) (rid : Nat)
    (b : ReviewBody) (r : Review) (hr : findReview db rid = some r)
    (hauth : r.authorId = caller.id ∨ caller.role = Role.admin)
    (hval : validBodyUpdate b = true)
    (hdup : dupAfterUpdate db rid (applyReviewBody b r) = false) :
    updateReview db caller rid b = (200, { db with
      reviews := db.reviews.map (fun x =>
        if x.id = rid then applyReviewBody b x else x) }) := by
  have hcond : ¬(r.authorId ≠ caller.id ∧ caller.role ≠ Role.admin) := by
    rcases hauth with h | h <;> simp [h]
  unfold updateReview
  rw [hr]
  simp only [if_neg hcond]
  rw [hval, hdup]
  simp

theorem updateOkFind (db : DB) (caller : User) (rid : Nat)
    (b : ReviewBody) (r : Review) (hr : findReview db rid = some r)
    (hauth : r.authorId = caller.id ∨ caller.role = Role.admin)
    (hval : validBodyUpdate b = true)
    (hdup : dupAfterUpdate db rid (applyReviewBody b r) = false) :
    findReview (updateReview db caller rid b).2 rid =
      some (applyReviewBody b r) := by
  have hrid : r.id = rid := by simpa using List.find?_some hr
  have hr' : db.reviews.find? (fun x => x.id = rid) = some r := hr
  rw [updateOk db caller rid b r hr hauth hval hdup]
  show (List.map _ db.reviews).find? _ = _
  rw [findRevMap db.reviews _ (fun x => by
    by_cases hx : x.id = rid <;> simp [hx, applyReviewBody]), hr']
  simp [hrid]

theorem deleteOk (db : DB) (caller : User) (rid : Nat) (r : Review)
    (hr : findReview db rid = some r)
    (hauth : r.authorId = caller.id ∨ caller.role = Role.admin) :
    deleteReview db caller rid =
      (200, removeReview (getAverageRating db r.companyId) rid) := by
  have hcond : ¬(r.authorId ≠ caller.id ∧ caller.role ≠ Role.admin) := by
    rcases hauth with h | h <;> simp [h]
  unfold deleteReview
  rw [hr]
  simp only [hcond, if_false]

theorem deleteOkFind (db : DB) (caller : User) (rid : Nat) (r : Review)
    (hr : findReview db rid = some r)
    (hauth : r.authorId = caller.id ∨ caller.role = Role.admin)
    (hnd : (db.reviews.map (fun x => x.id)).Nodup) :
    findReview (deleteReview db caller rid).2 rid = none := by
  rw [deleteOk db caller rid r hr hauth]
  show ((getAverageRating db r.companyId).reviews.eraseP _).find? _ = none
  have hrev : (getAverageRating db r.companyId).reviews = db.reviews := rfl
  rw [hrev, List.find?_eq_none]
  intro x hx
  simpa using erasePIdNe db.reviews rid hnd x hx

/-- C3: on PUT /api/reviews/:id and DELETE /api/reviews/:id, an
authenticated caller who is neither the review's author nor an admin
gets 401 with the state unchanged; the author or any admin gets the
update (the body applied to the stored review) or the delete (the
review no longer found) performed. -/
theorem review_mutation_ownership (db : DB) (caller : User) (rid : Nat)
    (b : ReviewBody) (r : Review) (hr : findReview db rid = some r) :
    (r.authorId ≠ caller.id → caller.role ≠ Role.admin →
      updateReview db caller rid b = (401, db) ∧
      deleteReview db caller rid = (401, db)) ∧
    ((r.authorId = caller.id ∨ caller.role = Role.admin) →
      (validBodyUpdate b = true →
        dupAfterUpdate db rid (applyReviewBody b r) = false →
        (updateReview db caller rid b).1 = 200 ∧
        findReview (updateReview db caller rid b).2 rid =
          some (applyReviewBody b r)) ∧
      ((deleteReview db caller rid).1 = 200 ∧
        ((db.reviews.map (fun x => x.id)).Nodup →
          findReview (deleteReview db caller rid).2 rid = none))) := by
  constructor
  · intro h1 h2
    constructor
    · unfold updateReview
      rw [hr]
      simp [h1, h2]
    · unfold deleteReview
      rw [hr]
      simp [h1, h2]
  · intro hauth
    refine ⟨fun hval hdup => ⟨?_, updateOkFind db caller rid b r hr hauth hval hdup⟩,
      ?_, fun hnd => deleteOkFind db caller rid r hr hauth hnd⟩
    · rw [updateOk db caller rid b r hr hauth hval hdup]
    · rw [deleteOk db caller rid r hr hauth]

/-- C3 witness: a concrete store with one review (author 7, company 1);
caller 8 (role user) is rejected with 401 on update and delete, and the
admin caller 9 gets both operations performed. -/
theorem review_mutation_ownership_witness :
    (updateReview ⟨[], [], [⟨20, 5, "good", 1, 7⟩]⟩
        ⟨8, "m", "m@e.mn", (0, "x"), Role.user⟩ 20 ⟨some 4, none, none, none⟩ =
      (401, ⟨[], [], [⟨20, 5, "good", 1, 7⟩]⟩) ∧
     deleteReview ⟨[], [], [⟨20, 5, "good", 1, 7⟩]⟩
        ⟨8, "m", "m@e.mn", (0, "x"), Role.user⟩ 20 =
      (401, ⟨[], [], [⟨20, 5, "good", 1, 7⟩]⟩)) ∧
    ((updateReview ⟨[], [], [⟨20, 5, "good", 1, 7⟩]⟩
        ⟨9, "r", "r@e.mn", (0, "y"), Role.admin⟩ 20 ⟨some 4, none, none, none⟩).1 = 200 ∧
     findReview (updateReview ⟨[], [], [⟨20, 5, "good", 1, 7⟩]⟩
        ⟨9, "r", "r@e.mn", (0, "y"), Role.admin⟩ 20 ⟨some 4, none, none, none⟩).2 20 =
      some (applyReviewBody ⟨some 4, none, none, none⟩ ⟨20, 5, "good", 1, 7⟩)) ∧
    ((deleteReview ⟨[], [], [⟨20, 5, "good", 1, 7⟩]⟩
        ⟨9, "r", "r@e.mn", (0, "y"), Role.admin⟩ 20).1 = 200 ∧
     findReview (deleteReview ⟨[], [], [⟨20, 5, "good", 1, 7⟩]⟩
        ⟨9, "r", "r@e.mn", (0, "y"), Role.admin⟩ 20).2 20 = none) := by
  refine ⟨?_, ?_, ?_⟩
  · exact (review_mutation_ownership ⟨[], [], [⟨20, 5, "good", 1, 7⟩]⟩ ⟨8, "m", "m@e.mn", (0, "x"), Role.user⟩
      20 ⟨some 4, none, none, none⟩ ⟨20, 5, "good", 1, 7⟩ rfl).1
      (by decide) (by decide)
  · exact ((review_mutation_ownership ⟨[], [], [⟨20, 5, "good", 1, 7⟩]⟩ ⟨9, "r", "r@e.mn", (0, "y"), Role.admin⟩
      20 ⟨some 4, none, none, none⟩ ⟨20, 5, "good", 1, 7⟩ rfl).2
      (Or.inr rfl)).1 (by decide) (by decide)
  · exact ⟨(((review_mutation_ownership ⟨[], [], [⟨20, 5, "good", 1, 7⟩]⟩ ⟨9, "r", "r@e.mn", (0, "y"), Role.admin⟩
      20 ⟨some 4, none, none, none⟩ ⟨20, 5, "good", 1, 7⟩ rfl).2
      (Or.inr rfl)).2).1,
      (((review_mutation_ownership ⟨[], [], [⟨20, 5, "good", 1, 7⟩]⟩ ⟨9, "r", "r@e.mn", (0, "y"), Role.admin⟩
      20 ⟨some 4, none, none, none⟩ ⟨20, 5, "good", 1, 7⟩ rfl).2
      (Or.inr rfl)).2).2 (by decide)⟩

/-- C10: PUT /api/reviews/:id applies the body wholesale with no field
whitelist: each field named in the body — including authorId and
companyId — takes the body's value, each unnamed field keeps its stored
value, and every other review is untouched. -/
theorem review_update_wholesale (db : DB) (caller : User) (rid : Nat)
    (b : ReviewBody) (r : Review) (hr : findReview db rid = some r)
    (hauth : r.authorId = caller.id ∨ caller.role = Role.admin)
    (hval : validBodyUpdate b = true)
    (hdup : dupAfterUpdate db rid (applyReviewBody b r) = false) :
    (updateReview db caller rid b).1 = 200 ∧
    findReview (updateReview db caller rid b).2 rid = some
      { id := r.id
        rating := b.rating.getD r.rating
        comment := b.comment.getD r.comment
        companyId := b.companyId.getD r.companyId
        authorId := b.authorId.getD r.authorId } ∧
    ∀ x ∈ db.reviews, x.id ≠ rid →
      x ∈ (updateReview db caller rid b).2.reviews := by
  refine ⟨?_, ?_, ?_⟩
  · rw [updateOk db caller rid b r hr hauth hval hdup]
  · rw [updateOkFind db caller rid b r hr hauth hval hdup]; rfl
  · intro x hx hxid
    rw [updateOk db caller rid b r hr hauth hval hdup]
    have : (if x.id = rid then applyReviewBody b x else x) = x := by
      simp [hxid]
    exact this ▸ List.mem_map_of_mem _ hx

/-- C10 witness: the author (user 7, not an admin) of review 30 on
company 1 reassigns it to company 2 and author 99 through the update
body; absent fields (rating, comment) keep their stored values. -/
theorem review_update_wholesale_witness :
    (updateReview ⟨[], [], [⟨30, 3, "ok", 1, 7⟩]⟩
        ⟨7, "a", "a@e.mn", (0, "p"), Role.user⟩ 30
        ⟨none, none, some 2, some 99⟩).1 = 200 ∧
    findReview (updateReview ⟨[], [], [⟨30, 3, "ok", 1, 7⟩]⟩
        ⟨7, "a", "a@e.mn", (0, "p"), Role.user⟩ 30
        ⟨none, none, some 2, some 99⟩).2 30 =
      some { id := 30, rating := (3 : ℚ), comment := "ok",
             companyId := (some 2).getD 1, authorId := (some 99).getD 7 } := by
  have h := review_update_wholesale ⟨[], [], [⟨30, 3, "ok", 1, 7⟩]⟩
    ⟨7, "a", "a@e.mn", (0, "p"), Role.user⟩ 30
    ⟨none, none, some 2, some 99⟩ ⟨30, 3, "ok", 1, 7⟩ rfl
    (Or.inl rfl) (by decide) (by decide)
  exact ⟨h.1, h.2.1⟩


theorem findCompMap (l : List Company) (f : Company → Company)
    (hf : ∀ c, (f c).id = c.id) (x : Nat) :
    (l.map f).find? (fun c => c.id = x) = (l.find? (fun c => c.id = x)).map f := by
  induction l with
  | nil => rfl
  | cons a t ih =>
    by_cases h : a.id = x
    · rw [List.map_cons, List.find?_cons_of_pos _ (by simpa [hf a] using h),
        List.find?_cons_of_pos _ (by simpa using h), Option.map_some']
    · rw [List.map_cons, List.find?_cons_of_neg _ (by simpa [hf a] using h),
        List.find?_cons_of_neg _ (by simpa using h), ih]

theorem avgAfterRecompute (db : DB) (cid : Nat)
    (h : companyReviews db cid ≠ []) (c : Company)
    (hc : findCompany (getAverageRating db cid) cid = some c) :
    c.averageRating = some (ratingMean (companyReviews db cid)) := by
  have hc' : (db.companies.map (fun c0 =>
      if c0.id = cid then { c0 with averageRating := newAverage db cid } else c0)).find?
        (fun c0 => c0.id = cid) = some c := hc
  rw [findCompMap db.companies _ (fun c0 => by
    by_cases hx : c0.id = cid <;> simp [hx]) cid] at hc'
  rcases Option.map_eq_some'.mp hc' with ⟨c0, hc0, hfc⟩
  have hid : c0.id = cid := by simpa using List.find?_some hc0
  have hne : (companyReviews db cid).isEmpty = false := by
    simpa [List.isEmpty_iff] using h
  rw [← hfc]
  simp [hid, newAverage, hne]

theorem reviewCreateModelOk (db : DB) (r : Review) (db1 : DB)
    (h : reviewCreateModel db r = .ok db1) :
    db1 = { db with reviews := db.reviews ++ [r] } := by
  unfold reviewCreateModel at h
  split at h
  · cases h
  · split at h
    · cases h
    · split at h
      · cases h
      · cases h; rfl

/-- C1 counterexample: the claim fails on PUT /api/reviews/:id.  With
one review (rating 5) the cached average is 5; the author updates the
rating to 1; the route's `findByIdAndUpdate` fires no save middleware,
so afterwards the company's averageRating (still 5) differs from the
mean of the reviews now referencing it (1). -/
theorem avg_invariant_counterexample :
    (updateReview dbC1 authorC1 20 ⟨some 1, none, none, none⟩).1 = 200 ∧
    (findCompany (updateReview dbC1 authorC1 20 ⟨some 1, none, none, none⟩).2 1).map
        Company.averageRating ≠
      some (some (ratingMean
        (companyReviews (updateReview dbC1 authorC1 20 ⟨some 1, none, none, none⟩).2 1))) := by
  norm_num [updateReview, findReview, findCompany, companyReviews, dbC1, authorC1,
    validBodyUpdate, dupAfterUpdate, applyReviewBody, ratingMean, ratingSum]

/-- C1 amended: after a successful review create, the company's
averageRating equals the mean of the reviews then referencing it; a
review update (any outcome) leaves every company record — hence the
cached average — unchanged; after a successful document-level review
delete the cached average equals the mean over the PRE-delete review
set (the `pre('deleteOne')` hook aggregates before the removal), so it
includes the deleted review and is never cleared to absent. -/
theorem avg_maintenance (db : DB) (caller : User) (cid rid newId : Nat)
    (cb : CreateReviewBody) (b : ReviewBody) :
    (∀ st dbc, createReview db caller cid cb newId = (st, dbc) → st = 201 →
      ∀ c, findCompany dbc cid = some c →
        c.averageRating = some (ratingMean (companyReviews dbc cid))) ∧
    (∀ st dbu, updateReview db caller rid b = (st, dbu) →
      dbu.companies = db.companies) ∧
    (∀ st dbd r, findReview db rid = some r →
      deleteReview db caller rid = (st, dbd) → st = 200 →
      ∀ c, findCompany dbd r.companyId = some c →
        c.averageRating = some (ratingMean (companyReviews db r.companyId))) := by
  refine ⟨?_, ?_, ?_⟩
  · intro st dbc h h201 c hc
    subst h201
    unfold createReview at h
    split at h
    · simp at h
    · split at h
      · rename_i q cm heq1 heq2
        rcases hq : reviewCreateModel db ⟨newId, q, cm, cid, caller.id⟩ with err | db1
        · rw [hq] at h; simp at h
        · rw [hq] at h
          have hdb1 := reviewCreateModelOk db _ db1 hq
          have hdbc : dbc = getAverageRating db1 cid := by
            cases h; rfl
          subst hdbc
          have hmem : (⟨newId, q, cm, cid, caller.id⟩ : Review) ∈ companyReviews db1 cid := by
            subst hdb1
            exact List.mem_filter.mpr ⟨by simp, by simp⟩
          have hrev : companyReviews (getAverageRating db1 cid) cid = companyReviews db1 cid := rfl
          rw [hrev]
          exact avgAfterRecompute db1 cid (List.ne_nil_of_mem hmem) c hc
      · simp at h
  · intro st dbu h
    unfold updateReview at h
    split at h
    · cases h; rfl
    · split at h
      · cases h; rfl
      · split at h
        · cases h; rfl
        · split at h
          · cases h; rfl
          · cases h; rfl
  · intro st dbd r hr h h200 c hc
    subst h200
    simp only [deleteReview, hr] at h
    by_cases hcond : r.authorId ≠ caller.id ∧ caller.role ≠ Role.admin
    · rw [if_pos hcond] at h
      simp at h
    · rw [if_neg hcond] at h
      have hdbd : dbd = removeReview (getAverageRating db r.companyId) rid := by
        cases h; rfl
      subst hdbd
      have hmem : r ∈ companyReviews db r.companyId :=
        List.mem_filter.mpr ⟨List.mem_of_find?_eq_some hr, by simp⟩
      exact avgAfterRecompute db r.companyId (List.ne_nil_of_mem hmem) c hc

/-- C1 amended witness: in the concrete store, an admin creating a
second review (rating 4) yields a cached average of 9/2; an update
leaves the company records untouched; deleting review 20 (rating 5)
recomputes the average over the pre-delete set, leaving 5. -/
theorem avg_maintenance_witness :
    (createReview dbC1 adminC1 1 ⟨some 4, some "ok"⟩ 21).1 = 201 ∧
    (⟨1, "Acme", "d", "Technology", "UB", some (9 / 2), 0⟩ : Company).averageRating =
      some (ratingMean (companyReviews (createReview dbC1 adminC1 1 ⟨some 4, some "ok"⟩ 21).2 1)) ∧
    (updateReview dbC1 adminC1 20 ⟨some 2, none, none, none⟩).2.companies = dbC1.companies ∧
    (⟨1, "Acme", "d", "Technology", "UB", some 5, 0⟩ : Company).averageRating =
      some (ratingMean (companyReviews dbC1 1)) := by
  refine ⟨by decide, ?_, ?_, ?_⟩
  · exact (avg_maintenance dbC1 adminC1 1 20 21 ⟨some 4, some "ok"⟩
      ⟨some 2, none, none, none⟩).1
      (createReview dbC1 adminC1 1 ⟨some 4, some "ok"⟩ 21).1
      (createReview dbC1 adminC1 1 ⟨some 4, some "ok"⟩ 21).2
      rfl (by decide) _
      (by norm_num +decide [createReview, findCompany, findReview, reviewCreateModel,
        getAverageRating, newAverage, companyReviews, ratingMean, ratingSum, dbC1, adminC1])
  · exact (avg_maintenance dbC1 adminC1 1 20 21 ⟨some 4, some "ok"⟩
      ⟨some 2, none, none, none⟩).2.1
      (updateReview dbC1 adminC1 20 ⟨some 2, none, none, none⟩).1
      (updateReview dbC1 adminC1 20 ⟨some 2, none, none, none⟩).2 rfl
  · exact (avg_maintenance dbC1 adminC1 1 20 21 ⟨some 4, some "ok"⟩
      ⟨some 2, none, none, none⟩).2.2
      (deleteReview dbC1 adminC1 20).1
      (deleteReview dbC1 adminC1 20).2
      ⟨20, 5, "good", 1, 7⟩ (by decide) rfl (by decide) _
      (by norm_num +decide [deleteReview, findCompany, findReview, removeReview,
        getAverageRating, newAverage, companyReviews, ratingMean, ratingSum, dbC1, adminC1])


theorem reviewCreateModelOkRange (db : DB) (r : Review) (db1 : DB)
    (h : reviewCreateModel db r = .ok db1) : 1 ≤ r.rating ∧ r.rating ≤ 5 := by
  unfold reviewCreateModel at h
  split at h
  · cases h
  · rename_i hcond
    exact not_not.mp hcond

/-- C4: deleting an existing company removes every review referencing
it (the Company pre-deleteOne hook runs `Review.deleteMany` before the
company itself is removed): afterwards no review references the
company, the company itself is gone, and a lookup of any of the deleted
reviews answers 404. -/
theorem company_delete_cascade (db : DB) (cid : Nat) (c : Company)
    (hc : findCompany db cid = some c)
    (hnd : (db.reviews.map (fun x => x.id)).Nodup) :
    (deleteCompany db cid).1 = 200 ∧
    companyReviews (deleteCompany db cid).2 cid = [] ∧
    findCompany (deleteCompany db cid).2 cid = none ∧
    ∀ rv ∈ db.reviews, rv.companyId = cid →
      getReview (deleteCompany db cid).2 rv.id = 404 := by
  have hd : deleteCompany db cid = (200, { db with
      companies := db.companies.filter (fun c0 => c0.id ≠ cid)
      reviews := db.reviews.filter (fun r => r.companyId ≠ cid) }) := by
    unfold deleteCompany
    rw [hc]
  refine ⟨by rw [hd], ?_, ?_, ?_⟩
  · rw [hd]
    show (db.reviews.filter (fun r => r.companyId ≠ cid)).filter
      (fun r => r.companyId = cid) = []
    rw [List.filter_eq_nil_iff]
    intro a ha
    have h2 := (List.mem_filter.mp ha).2
    simp only [decide_eq_true_eq] at h2 ⊢
    exact h2
  · rw [hd]
    show (db.companies.filter (fun c0 => c0.id ≠ cid)).find?
      (fun c0 => c0.id = cid) = none
    rw [List.find?_eq_none]
    intro x hx
    have h2 := (List.mem_filter.mp hx).2
    simpa using h2
  · intro rv hrv hcidv
    have hnone : findReview (deleteCompany db cid).2 rv.id = none := by
      rw [hd]
      show (db.reviews.filter (fun r => r.companyId ≠ cid)).find?
        (fun r => r.id = rv.id) = none
      rw [List.find?_eq_none]
      intro x hx
      rcases List.mem_filter.mp hx with ⟨hxl, hxc⟩
      simp only [decide_eq_true_eq]
      intro hxid
      have hxeq : x = rv :=
        List.inj_on_of_nodup_map hnd hxl hrv (by simpa using hxid)
      rw [hxeq] at hxc
      simp [hcidv] at hxc
    unfold getReview
    rw [hnone]

/-- C4 witness: deleting company 1 of the concrete store removes the
company, leaves no review referencing it, and lookups of its two
reviews (ids 20 and 21) answer 404. -/
theorem company_delete_cascade_witness :
    (deleteCompany dbC4 1).1 = 200 ∧
    companyReviews (deleteCompany dbC4 1).2 1 = [] ∧
    findCompany (deleteCompany dbC4 1).2 1 = none ∧
    getReview (deleteCompany dbC4 1).2 20 = 404 ∧
    getReview (deleteCompany dbC4 1).2 21 = 404 := by
  have h := company_delete_cascade dbC4 1
    ⟨1, "Acme", "d", "Technology", "UB", some 4, 0⟩ (by decide) (by decide)
  exact ⟨h.1, h.2.1, h.2.2.1,
    h.2.2.2 ⟨20, 5, "good", 1, 7⟩ (by decide) (by decide),
    h.2.2.2 ⟨21, 3, "meh", 1, 8⟩ (by decide) (by decide)⟩

/-- C6: the (companyId, authorId) unique index rejects a second review
by the same author on the same company: `Review.create` fails with a
duplicate-key error, the route answers 500, and the store is
unchanged. -/
theorem review_unique_per_pair (db : DB) (caller : User) (cid newId : Nat)
    (q : ℚ) (cm : String) (c : Company) (r0 : Review)
    (hc : findCompany db cid = some c)
    (h0 : r0 ∈ db.reviews) (hcid : r0.companyId = cid)
    (haid : r0.authorId = caller.id)
    (hq : 1 ≤ q ∧ q ≤ 5) (hcm : cm.isEmpty = false) :
    reviewCreateModel db ⟨newId, q, cm, cid, caller.id⟩ = .error .dupKey ∧
    createReview db caller cid ⟨some q, some cm⟩ newId = (500, db) := by
  have hdup : (db.reviews.any (fun x =>
      decide (x.companyId = cid) && decide (x.authorId = caller.id))) = true := by
    rw [List.any_eq_true]
    exact ⟨r0, h0, by simp [hcid, haid]⟩
  have hm : reviewCreateModel db ⟨newId, q, cm, cid, caller.id⟩ = .error .dupKey := by
    unfold reviewCreateModel
    rw [if_neg (not_not_intro hq), if_neg (by simp [hcm]), if_pos hdup]
  refine ⟨hm, ?_⟩
  simp only [createReview, hc, hm]

/-- C6 witness: author 7 already reviewed company 1 in the concrete
store; a second create by the same author on the same company fails
with the duplicate-key error and changes nothing. -/
theorem review_unique_per_pair_witness :
    reviewCreateModel dbC6 ⟨41, 4, "dup", 1, 7⟩ = .error .dupKey ∧
    createReview dbC6 authorC6 1 ⟨some 4, some "dup"⟩ 41 = (500, dbC6) := by
  exact review_unique_per_pair dbC6 authorC6 1 41 4 "dup"
    ⟨1, "Acme", "d", "Technology", "UB", some 3, 0⟩ ⟨20, 3, "ok", 1, 7⟩
    (by decide) (by decide) (by decide) (by decide) (by decide) (by decide)

/-- C9 counterexample: the rating schema enforces only min 1 / max 5,
not integrality: creating a review rated 7/2 succeeds (201) and stores
the non-integer rating, refuting the claim that non-integer ratings are
rejected. -/
theorem rating_integer_counterexample :
    (createReview dbC6 userC9 1 ⟨some (7 / 2), some "meh"⟩ 40).1 = 201 ∧
    findReview (createReview dbC6 userC9 1 ⟨some (7 / 2), some "meh"⟩ 40).2 40 =
      some ⟨40, 7 / 2, "meh", 1, 8⟩ ∧
    ¬ ∃ n : ℤ, ((7 : ℚ) / 2) = (n : ℚ) := by
  refine ⟨?_, ?_, ?_⟩
  · norm_num +decide [createReview, findCompany, reviewCreateModel, dbC6, userC9]
  · norm_num +decide [createReview, findCompany, findReview, reviewCreateModel,
      getAverageRating, newAverage, companyReviews, ratingMean, ratingSum, dbC6, userC9]
  · rintro ⟨n, hn⟩
    have h7 : (7 : ℚ) = 2 * (n : ℚ) := by
      field_simp at hn
      linarith
    have h7i : (7 : ℤ) = 2 * n := by exact_mod_cast h7
    omega

/-- C9 amended: ratings are validated against the range [1,5] only:
creates and updates whose rating lies outside [1,5] are rejected (the
store unchanged, the error surfacing as 404/401/500 before or instead
of the write), a successful create implies the stored rating is within
[1,5], and integrality is not checked. -/
theorem rating_range_validation (db : DB) (caller : User) (cid rid newId : Nat)
    (q : ℚ) (cm : String) (b : ReviewBody) :
    (¬(1 ≤ q ∧ q ≤ 5) →
      createReview db caller cid ⟨some q, some cm⟩ newId = (404, db) ∨
      createReview db caller cid ⟨some q, some cm⟩ newId = (500, db)) ∧
    (∀ st dbc, createReview db caller cid ⟨some q, some cm⟩ newId = (st, dbc) →
      st = 201 → 1 ≤ q ∧ q ≤ 5) ∧
    (b.rating = some q → ¬(1 ≤ q ∧ q ≤ 5) →
      updateReview db caller rid b = (404, db) ∨
      updateReview db caller rid b = (401, db) ∨
      updateReview db caller rid b = (500, db)) := by
  refine ⟨?_, ?_, ?_⟩
  · intro hq
    have hm : reviewCreateModel db ⟨newId, q, cm, cid, caller.id⟩ =
        .error .validation := by
      unfold reviewCreateModel
      rw [if_pos hq]
    cases hfc : findCompany db cid with
    | none =>
      left
      simp only [createReview, hfc]
    | some c =>
      right
      simp only [createReview, hfc, hm]
  · intro st dbc h h201
    subst h201
    simp only [createReview] at h
    split at h
    · simp at h
    · rcases hm : reviewCreateModel db ⟨newId, q, cm, cid, caller.id⟩ with e | db1
      · rw [hm] at h
        simp at h
      · exact reviewCreateModelOkRange db _ db1 hm
  · intro hbq hq
    have hv : validBodyUpdate b = false := by
      unfold validBodyUpdate
      rw [hbq]
      rcases not_and_or.mp hq with h | h <;> simp [h]
    cases hfr : findReview db rid with
    | none =>
      left
      simp only [updateReview, hfr]
    | some r =>
      by_cases hown : r.authorId ≠ caller.id ∧ caller.role ≠ Role.admin
      · right; left
        simp only [updateReview, hfr, if_pos hown]
      · right; right
        simp only [updateReview, hfr, if_neg hown, hv]
        simp

/-- C9 amended witness: on the concrete store, a create rated 9 is
rejected, a create rated 4 succeeds (hence its rating is in range), and
an update setting the rating to 0 is rejected. -/
theorem rating_range_validation_witness :
    (createReview dbC6 userC9 1 ⟨some 9, some "m"⟩ 40 = (404, dbC6) ∨
     createReview dbC6 userC9 1 ⟨some 9, some "m"⟩ 40 = (500, dbC6)) ∧
    ((1 : ℚ) ≤ 4 ∧ (4 : ℚ) ≤ 5) ∧
    (updateReview dbC6 userC9 20 ⟨some 0, none, none, none⟩ = (404, dbC6) ∨
     updateReview dbC6 userC9 20 ⟨some 0, none, none, none⟩ = (401, dbC6) ∨
     updateReview dbC6 userC9 20 ⟨some 0, none, none, none⟩ = (500, dbC6)) := by
  refine ⟨?_, ?_, ?_⟩
  · exact (rating_range_validation dbC6 userC9 1 20 40 9 "m"
      ⟨some 0, none, none, none⟩).1 (by decide)
  · exact (rating_range_validation dbC6 userC9 1 20 40 4 "m"
      ⟨some 0, none, none, none⟩).2.1
      (createReview dbC6 userC9 1 ⟨some 4, some "m"⟩ 40).1
      (createReview dbC6 userC9 1 ⟨some 4, some "m"⟩ 40).2 rfl (by decide)
  · exact (rating_range_validation dbC6 userC9 1 20 40 0 "m"
      ⟨some 0, none, none, none⟩).2.2 rfl (by decide)

/-- C5 counterexample: with three companies, limit 2 and page 1, the
response's count field is 2 — the length of the returned page — while
the total document count is 3: the response does not contain a total
count. -/
theorem pagination_total_counterexample :
    (listCompanies dbC5 (fun _ => true) none (some 2)).count = 2 ∧
    dbC5.companies.length = 3 ∧
    (listCompanies dbC5 (fun _ => true) none (some 2)).count ≠
      dbC5.companies.length := by
  decide

/-- C5 amended: page defaults to 1 and limit to 25; for a positive page
and limit the returned data is the window of the sorted, filtered
result skipping (page-1)*limit records and taking limit; the count
field is the number of records in that page (not a total); next is
present iff page*limit is below the unconditional (filter-ignoring)
total document count; prev is present iff page > 1. -/
theorem pagination_window (db : DB) (filt : Company → Bool)
    (pOpt lOpt : Option Int)
    (hp : 1 ≤ pageVal pOpt) (hl : 1 ≤ limitVal lOpt) :
    (listCompanies db filt pOpt lOpt).status = 200 ∧
    (listCompanies db filt pOpt lOpt).data =
      ((sortCompanies (db.companies.filter filt)).drop
        ((pageVal pOpt - 1) * limitVal lOpt).toNat).take (limitVal lOpt).toNat ∧
    (listCompanies db filt pOpt lOpt).count =
      (listCompanies db filt pOpt lOpt).data.length ∧
    ((listCompanies db filt pOpt lOpt).next.isSome ↔
      pageVal pOpt * limitVal lOpt < (db.companies.length : Int)) ∧
    ((listCompanies db filt pOpt lOpt).prev.isSome ↔ 1 < pageVal pOpt) ∧
    pageVal none = 1 ∧ limitVal none = 25 := by
  have h0 : ¬ ((pageVal pOpt - 1) * limitVal lOpt < 0) := by
    push_neg
    exact mul_nonneg (by omega) (by omega)
  have hL : listCompanies db filt pOpt lOpt =
      { status := 200,
        count := (((sortCompanies (db.companies.filter filt)).drop
          ((pageVal pOpt - 1) * limitVal lOpt).toNat).take (limitVal lOpt).toNat).length,
        next := if pageVal pOpt * limitVal lOpt < (db.companies.length : Int) then
          some (pageVal pOpt + 1, limitVal lOpt) else none,
        prev := if (pageVal pOpt - 1) * limitVal lOpt > 0 then
          some (pageVal pOpt - 1, limitVal lOpt) else none,
        data := ((sortCompanies (db.companies.filter filt)).drop
          ((pageVal pOpt - 1) * limitVal lOpt).toNat).take (limitVal lOpt).toNat } := by
    unfold listCompanies
    rw [if_neg h0]
  have hiff : (pageVal pOpt - 1) * limitVal lOpt > 0 ↔ 1 < pageVal pOpt := by
    constructor
    · intro h
      by_contra hle
      push_neg at hle
      have hpe : pageVal pOpt = 1 := le_antisymm hle hp
      rw [hpe] at h
      simp at h
    · intro h
      exact mul_pos (by omega) (by omega)
  rw [hL]
  refine ⟨rfl, rfl, rfl, ?_, ?_, rfl, rfl⟩
  · by_cases hnext : pageVal pOpt * limitVal lOpt < (db.companies.length : Int)
    · simp [hnext]
    · simp [hnext]
  · by_cases hprev : (pageVal pOpt - 1) * limitVal lOpt > 0
    · simp [hprev, hiff.mp hprev]
    · simp only [if_neg hprev, Option.isSome_none, Bool.false_eq_true, false_iff]
      exact fun hc => hprev (hiff.mpr hc)

/-- C5 amended witness: page 2 with limit 2 over the three-company
store filtered to the two oldest records: the returned page is the
window, the count is that page length, next is absent (2*2 is not
below 3) and prev is present. -/
theorem pagination_window_witness :
    (listCompanies dbC5 (fun c => c.createdAt ≤ 2) (some 2) (some 2)).status = 200 ∧
    (listCompanies dbC5 (fun c => c.createdAt ≤ 2) (some 2) (some 2)).data =
      ((sortCompanies (dbC5.companies.filter (fun c => c.createdAt ≤ 2))).drop
        ((pageVal (some 2) - 1) * limitVal (some 2)).toNat).take (limitVal (some 2)).toNat ∧
    (listCompanies dbC5 (fun c => c.createdAt ≤ 2) (some 2) (some 2)).count =
      (listCompanies dbC5 (fun c => c.createdAt ≤ 2) (some 2) (some 2)).data.length ∧
    ((listCompanies dbC5 (fun c => c.createdAt ≤ 2) (some 2) (some 2)).next.isSome ↔
      pageVal (some 2) * limitVal (some 2) < (dbC5.companies.length : Int)) ∧
    ((listCompanies dbC5 (fun c => c.createdAt ≤ 2) (some 2) (some 2)).prev.isSome ↔
      1 < pageVal (some 2)) ∧
    pageVal none = 1 ∧ limitVal none = 25 := by
  exact pagination_window dbC5 (fun c => c.createdAt ≤ 2) (some 2) (some 2)
    (by decide) (by decide)

/-- C7: POST /api/auth/login answers 200 with a token signed over the
user's id and role — a token whose signature verifies against the
server secret — when a user with the given email exists and the bcrypt
comparison succeeds; it answers 401 with no token when no user has the
email or the password comparison fails. -/
theorem login_behavior (db : DB) (secret email pw : String)
    (hem : email.isEmpty = false) (hpw : pw.isEmpty = false) :
    (∀ u, findUserByEmail db email = some u →
      bcryptCompare pw u.passwordHash = true →
      login db secret (some email) (some pw) =
        (200, some (jwtSign ⟨u.id, u.role⟩ secret)) ∧
      jwtVerify (jwtSign ⟨u.id, u.role⟩ secret) secret = true) ∧
    (findUserByEmail db email = none →
      login db secret (some email) (some pw) = (401, none)) ∧
    (∀ u, findUserByEmail db email = some u →
      bcryptCompare pw u.passwordHash = false →
      login db secret (some email) (some pw) = (401, none)) := by
  refine ⟨?_, ?_, ?_⟩
  · intro u hu hcmp
    refine ⟨?_, by simp [jwtVerify, jwtSign]⟩
    simp [login, hem, hpw, hu, hcmp]
  · intro hnone
    simp [login, hem, hpw, hnone]
  · intro u hu hcmp
    simp [login, hem, hpw, hu, hcmp]

/-- C7 witness: in the one-user store, logging in with the stored
password returns 200 and a verifying token; a wrong password and an
unknown email each return 401 with no token. -/
theorem login_behavior_witness :
    (login dbC7 "srv" (some "a@b.mn") (some "secret123") =
        (200, some (jwtSign ⟨5, Role.user⟩ "srv")) ∧
      jwtVerify (jwtSign ⟨5, Role.user⟩ "srv") "srv" = true) ∧
    login dbC7 "srv" (some "a@b.mn") (some "wrong") = (401, none) ∧
    login dbC7 "srv" (some "z@b.mn") (some "secret123") = (401, none) := by
  refine ⟨?_, ?_, ?_⟩
  · exact ((login_behavior dbC7 "srv" "a@b.mn" "secret123"
      (by decide) (by decide)).1
      ⟨5, "Ann", "a@b.mn", bcryptHash 2 "secret123", Role.user⟩
      (by decide) (by decide))
  · exact ((login_behavior dbC7 "srv" "a@b.mn" "wrong"
      (by decide) (by decide)).2.2
      ⟨5, "Ann", "a@b.mn", bcryptHash 2 "secret123", Role.user⟩
      (by decide) (by decide))
  · exact ((login_behavior dbC7 "srv" "z@b.mn" "secret123"
      (by decide) (by decide)).2.1 (by decide))

/-- C8: a successful registration answers 201 and issues a token whose
decoded subject is exactly the created user's id and role (a
sign/decode round trip), the token's signature verifying against the
secret, with the user stored. -/
theorem register_token_roundtrip (db : DB) (secret : String)
    (b : RegisterBody) (newId salt : Nat) (st : Nat) (u : User)
    (tok : Token) (db2 : DB)
    (h : register db secret b newId salt = (st, some (u, tok), db2)) :
    st = 201 ∧ jwtDecode tok = ⟨u.id, u.role⟩ ∧
    jwtVerify tok secret = true ∧ u ∈ db2.users := by
  unfold register at h
  split at h
  · split at h
    · simp at h
    · split at h
      · simp at h
      · split at h
        · simp at h
        · split at h
          · simp at h
          · cases h
            refine ⟨rfl, rfl, by simp [jwtVerify, jwtSign], by simp⟩
  · simp at h

/-- C8 witness: registering Jo with a fresh email and no explicit role
creates user 50 with the default role; the returned token decodes to
subject (50, user) and verifies against the secret. -/
theorem register_token_roundtrip_witness :
    (register ⟨[], [], []⟩ "srv"
        ⟨some "Jo", some "jo@ex.mn", some "hunter12", none⟩ 50 3).1 = 201 ∧
    jwtDecode (jwtSign ⟨50, Role.user⟩ "srv") = ⟨50, Role.user⟩ ∧
    jwtVerify (jwtSign ⟨50, Role.user⟩ "srv") "srv" = true ∧
    (⟨50, "Jo", "jo@ex.mn", (3, "hunter12"), Role.user⟩ : User) ∈
      (register ⟨[], [], []⟩ "srv"
        ⟨some "Jo", some "jo@ex.mn", some "hunter12", none⟩ 50 3).2.2.users := by
  exact register_token_roundtrip ⟨[], [], []⟩ "srv"
    ⟨some "Jo", some "jo@ex.mn", some "hunter12", none⟩ 50 3
    (register ⟨[], [], []⟩ "srv"
      ⟨some "Jo", some "jo@ex.mn", some "hunter12", none⟩ 50 3).1
    ⟨50, "Jo", "jo@ex.mn", (3, "hunter12"), Role.user⟩
    (jwtSign ⟨50, Role.user⟩ "srv")
    (register ⟨[], [], []⟩ "srv"
      ⟨some "Jo", some "jo@ex.mn", some "hunter12", none⟩ 50 3).2.2
    (by decide)

theorem replaceOpsNil : replaceOps [] = [] := by decide

theorem replaceOpsCons (c : Char) (s : List Char)
    (hc : isWordChar c = false) :
    replaceOps (c :: s) = c :: replaceOps s := by
  unfold replaceOps
  simp [repAux, hc, rewriteRun, opWords]

theorem repAuxNil (cur : List Char) :
    repAux cur [] = rewriteRun cur.reverse := by
  simp [repAux]

theorem repAuxConsPos (cur : List Char) (d : Char) (cs : List Char)
    (hd : isWordChar d = true) :
    repAux cur (d :: cs) = repAux (d :: cur) cs := by
  simp [repAux, hd]

theorem repAuxConsNeg (cur : List Char) (d : Char) (cs : List Char)
    (hd : isWordChar d = false) :
    repAux cur (d :: cs) = rewriteRun cur.reverse ++ d :: repAux [] cs := by
  simp [repAux, hd]

theorem repAuxSplit (a : List Char) (cur : List Char) (c : Char)
    (b : List Char) (hc : isWordChar c = false) :
    repAux cur (a ++ c :: b) = repAux cur a ++ repAux [] (c :: b) := by
  induction a generalizing cur with
  | nil =>
    rw [List.nil_append, repAuxConsNeg cur c b hc, repAuxConsNeg [] c b hc,
      repAuxNil, show rewriteRun (List.reverse ([] : List Char)) = [] from by decide]
    simp
  | cons d a' ih =>
    by_cases hd : isWordChar d
    · rw [List.cons_append, repAuxConsPos cur d _ hd, repAuxConsPos cur d a' hd]
      exact ih (d :: cur)
    · rw [Bool.not_eq_true] at hd
      rw [List.cons_append, repAuxConsNeg cur d _ hd, repAuxConsNeg cur d a' hd, ih []]
      simp [List.append_assoc]

theorem replaceOpsSplit (a : List Char) (c : Char) (b : List Char)
    (hc : isWordChar c = false) :
    replaceOps (a ++ c :: b) = replaceOps a ++ replaceOps (c :: b) := by
  unfold replaceOps
  exact repAuxSplit a [] c b hc

mutual

theorem repStringifyV (v : QVal) :
    replaceOps (stringifyV v) = stringifyV (mapV v) := by
  cases v with
  | str s =>
    show replaceOps ('"' :: (s ++ ['"'])) = '"' :: (replaceOps s ++ ['"'])
    rw [replaceOpsCons _ _ (by decide), replaceOpsSplit s '"' [] (by decide),
      replaceOpsCons '"' [] (by decide), replaceOpsNil]
  | obj fs =>
    show replaceOps ('{' :: (stringifyF fs ++ ['}'])) =
      '{' :: (stringifyF (mapF fs) ++ ['}'])
    rw [replaceOpsCons _ _ (by decide), replaceOpsSplit _ '}' [] (by decide),
      repStringifyF fs, replaceOpsCons '}' [] (by decide), replaceOpsNil]

theorem repStringifyF (fs : QFields) :
    replaceOps (stringifyF fs) = stringifyF (mapF fs) := by
  cases fs with
  | fnil => exact replaceOpsNil
  | fcons k v rest =>
    cases rest with
    | fnil =>
      show replaceOps ('"' :: (k ++ '"' :: ':' :: stringifyV v)) =
        '"' :: (replaceOps k ++ '"' :: ':' :: stringifyV (mapV v))
      rw [replaceOpsCons _ _ (by decide),
        replaceOpsSplit k '"' (':' :: stringifyV v) (by decide),
        replaceOpsCons '"' _ (by decide), replaceOpsCons ':' _ (by decide),
        repStringifyV v]
    | fcons k2 v2 rest2 =>
      show replaceOps (('"' :: (k ++ '"' :: ':' :: stringifyV v)) ++
          ',' :: stringifyF (.fcons k2 v2 rest2)) =
        ('"' :: (replaceOps k ++ '"' :: ':' :: stringifyV (mapV v))) ++
          ',' :: stringifyF (mapF (.fcons k2 v2 rest2))
      rw [replaceOpsSplit _ ',' _ (by decide),
        replaceOpsCons ',' _ (by decide), repStringifyF (.fcons k2 v2 rest2),
        replaceOpsCons '"' _ (by decide),
        replaceOpsSplit k '"' (':' :: stringifyV v) (by decide),
        replaceOpsCons '"' _ (by decide), replaceOpsCons ':' _ (by decide),
        repStringifyV v]

end

theorem removeReservedKeys : ∀ (q : QFields) (k : List Char),
    k ∈ qKeys (removeReserved q) → k ∉ reservedKeys
  | .fnil, k, hk => by simp [removeReserved, qKeys] at hk
  | .fcons k0 v rest, k, hk => by
    unfold removeReserved at hk
    by_cases h0 : k0 ∈ reservedKeys
    · rw [if_pos h0] at hk
      exact removeReservedKeys rest k hk
    · rw [if_neg h0] at hk
      unfold qKeys at hk
      rcases List.mem_cons.mp hk with rfl | hk'
      · exact h0
      · exact removeReservedKeys rest k hk'

/-- C2 counterexample: for the query in=5 no value matches an operator
word, so the claim predicts the filter is the query parsed unchanged;
the regex runs over the whole serialized JSON and rewrites the KEY,
producing the filter text of the query $in=5 instead. -/
theorem filter_translator_counterexample :
    buildFilter (.fcons "in".data (.str "5".data) .fnil) =
      stringifyV (.obj (.fcons "$in".data (.str "5".data) .fnil)) ∧
    buildFilter (.fcons "in".data (.str "5".data) .fnil) ≠
      stringifyV (.obj (.fcons "in".data (.str "5".data) .fnil)) := by
  decide

/-- C2 amended: the reserved keys select/sort/page/limit are removed
before the filter is built — no key of the remaining query is reserved
— and the built filter text is exactly the serialization of the
remaining query with EVERY maximal word-character run equal to
gt/gte/lt/lte/in rewritten to its $-prefixed form, wherever it occurs:
in keys, in nested keys and inside string values alike; parts without
such a whole-word occurrence are unchanged. -/
theorem filter_translator_rewrite (q : QFields) :
    (∀ k, k ∈ qKeys (removeReserved q) → k ∉ reservedKeys) ∧
    buildFilter q = stringifyV (.obj (mapF (removeReserved q))) := by
  exact ⟨removeReservedKeys q, repStringifyV (.obj (removeReserved q))⟩

end CR
